import Mathlib

/-!
Verification of the Spectral Residual anomaly detector
(merlion/models/anomaly/spectral_residual.py) against its specification.

The Python module is shallowly embedded here: numpy arrays become lists of
real numbers, the discrete Fourier transform and its inverse are written as
explicit exponential sums, numpy convolution modes are written out as list
operations, and the in-place mutation of the configuration performed by
training is modelled by explicit state passing.
-/

namespace SR

/-- Configuration bundle (class SpectralResidualConfig).  Python integers are
modelled by naturals; target_seq_index is a Python optional int, which may be
negative, hence Option Int. -/
structure SRConfig where
  local_wind_sz : ℕ
  q : ℕ
  estimated_points : ℕ
  predicting_points : ℕ
  target_seq_index : Option ℤ

/-- A pandas DataFrame as used by the detector: a timestamp index together
with the list of value columns (numpy column extraction "values[:, i]" picks
one element of cols). -/
structure DataFrame where
  index : List ℕ
  cols : List (List ℝ)

/-- Well-formedness of a frame: every column has one entry per timestamp. -/
def DataFrame.WF (df : DataFrame) : Prop :=
  ∀ c ∈ df.cols, c.length = df.index.length

/-- The single-column frame returned by scoring
(pd.DataFrame(output_values, index=time_series.index)). -/
structure ScoreFrame where
  index : List ℕ
  values : List ℝ

/-- Forward discrete Fourier transform (np.fft.fft):
entry k is the sum over j of v[j] * exp(-2*pi*i*k*j/n). -/
noncomputable def dft (v : List ℂ) : List ℂ :=
  (List.range v.length).map fun k : ℕ =>
    ∑ j in Finset.range v.length,
      v.getD j 0 * Complex.exp (-(2 * (Real.pi : ℂ) * Complex.I * (k : ℂ) * (j : ℂ) / (v.length : ℂ)))

/-- Inverse discrete Fourier transform (np.fft.ifft):
entry j is (1/n) times the sum over k of v[k] * exp(2*pi*i*k*j/n). -/
noncomputable def idft (v : List ℂ) : List ℂ :=
  (List.range v.length).map fun j : ℕ =>
    (∑ k in Finset.range v.length,
      v.getD k 0 * Complex.exp (2 * (Real.pi : ℂ) * Complex.I * (k : ℂ) * (j : ℂ) / (v.length : ℂ))) / (v.length : ℂ)

/-- Full discrete convolution (np.convolve(a, v, mode="full")): the output has
length a.length + v.length - 1 and entry n is the sum over j of a[j]*v[n-j],
out-of-range factors contributing zero.  numpy additionally rejects empty
inputs; theorems below assume both inputs nonempty. -/
noncomputable def convolveFull (a v : List ℝ) : List ℝ :=
  (List.range (a.length + v.length - 1)).map fun n =>
    ∑ j in Finset.range (n + 1), a.getD j 0 * v.getD (n - j) 0

/-- Centred convolution (np.convolve(a, v, mode="same")): the middle
max(a.length, v.length) entries of the full convolution, starting at offset
(min(a.length, v.length) - 1) / 2. -/
noncomputable def convolveSame (a v : List ℝ) : List ℝ :=
  ((convolveFull a v).drop ((min a.length v.length - 1) / 2)).take (max a.length v.length)

/-- The frequency smoothing kernel (self.q_conv_map = np.ones(q) / q). -/
noncomputable def q_conv_map (cfg : SRConfig) : List ℝ :=
  List.replicate cfg.q ((1 : ℝ) / (cfg.q : ℝ))

/-- The trailing average kernel (self.local_conv_map = np.ones(local_wind_sz)). -/
noncomputable def local_conv_map (cfg : SRConfig) : List ℝ :=
  List.replicate cfg.local_wind_sz (1 : ℝ)

/-- SpectralResidual._get_saliency_map: forward transform, log amplitudes,
phases, same-mode smoothing of the log amplitudes, residual, and magnitude of
the inverse transform of exp(residual + i*phase). -/
noncomputable def getSaliencyMap (cfg : SRConfig) (values : List ℝ) : List ℝ :=
  let transform := dft (values.map fun x : ℝ => (x : ℂ))
  let log_amps := transform.map fun z => Real.log (Complex.abs z)
  let phases := transform.map Complex.arg
  let avg_log_amps := convolveSame log_amps (q_conv_map cfg)
  let residuals := List.zipWith (fun x y => x - y) log_amps avg_log_amps
  (idft (List.zipWith (fun (r p : ℝ) => Complex.exp ((r : ℂ) + Complex.I * (p : ℂ))) residuals phases)).map
    fun z => Complex.abs z

/-- SpectralResidual._compute_grad: with m = min(predicting_points, n-1),
take the m values before the last one (values[-m-1:-1]), form the slopes
(last - value) / step with steps m, m-1, ..., 1, and average them.
numpy returns NaN on an empty slice (m = 0); theorems assume m >= 1. -/
noncomputable def computeGrad (cfg : SRConfig) (values : List ℝ) : ℝ :=
  let m := min cfg.predicting_points (values.length - 1)
  let x_n := values.getD (values.length - 1) 0
  let a := ((values.drop (values.length - 1 - m)).take m).map fun y => x_n - y
  let b := (List.range m).map fun j => m - j
  let averages := List.zipWith (fun x d => x / ((d : ℕ) : ℝ)) a b
  averages.sum / (averages.length : ℝ)

/-- SpectralResidual._pad: append estimated_points copies of
values[-m] + grad * m.  The Python index -m means position length - m when
m >= 1 and position 0 when m = 0. -/
noncomputable def pad (cfg : SRConfig) (values : List ℝ) : List ℝ :=
  let grad := computeGrad cfg values
  let m := min cfg.predicting_points (values.length - 1)
  let item := values.getD (if m = 0 then 0 else values.length - m) 0 + grad * (m : ℝ)
  values ++ List.replicate cfg.estimated_points item

/-- The padding step of _get_anomaly_score:
self._pad(values) if estimated_points > 0 else values. -/
noncomputable def paddedValues (cfg : SRConfig) (values : List ℝ) : List ℝ :=
  if 0 < cfg.estimated_points then pad cfg values else values

/-- The saliency map used for scoring: saliency of the (possibly padded)
values, with the last estimated_points entries dropped again when padding
was applied (saliency_map[:-estimated_points]). -/
noncomputable def trimmedSaliency (cfg : SRConfig) (values : List ℝ) : List ℝ :=
  let s0 := getSaliencyMap cfg (paddedValues cfg values)
  if 0 < cfg.estimated_points then s0.take (s0.length - cfg.estimated_points) else s0

/-- The trailing local average of _get_anomaly_score: full convolution with
the all-ones kernel, first n entries kept, entry k (0-based) divided by
min(k+1, local_wind_sz), and the last entry dropped. -/
noncomputable def averageValues (cfg : SRConfig) (saliency_map : List ℝ) (n : ℕ) : List ℝ :=
  let av := (convolveFull saliency_map (local_conv_map cfg)).take n
  let a := (List.range av.length).map fun k => min (k + 1) cfg.local_wind_sz
  (List.zipWith (fun x d => x / ((d : ℕ) : ℝ)) av a).dropLast

/-- Score assembly (np.append([0.0], (saliency_map[1:] - average_values) /
(average_values + 1e-8))). -/
noncomputable def outputValues (saliency_map average_values : List ℝ) : List ℝ :=
  0 :: List.zipWith (fun s a => (s - a) / (a + 1e-8)) (saliency_map.drop 1) average_values

/-- Python column selection semantics for an integer index: negative indices
count from the end (out-of-range indices raise in Python; here they fall back
to the empty-column default of getD). -/
def pyIdx (d : ℕ) (t : ℤ) : ℕ :=
  if t < 0 then (t + (d : ℤ)).toNat else t.toNat

/-- Extraction of the target column (time_series.values[:, i] with
i = self.target_seq_index). -/
noncomputable def targetCol (cfg : SRConfig) (df : DataFrame) : List ℝ :=
  df.cols.getD (pyIdx df.cols.length (cfg.target_seq_index.getD 0)) []

/-- The working array of _get_anomaly_score: the target column, preceded by
the target column of time_series_prev when a history frame is supplied. -/
noncomputable def workingValues (cfg : SRConfig) (ts : DataFrame) (prev : Option DataFrame) : List ℝ :=
  match prev with
  | none => targetCol cfg ts
  | some p => targetCol cfg p ++ targetCol cfg ts

/-- The full assembled score array of _get_anomaly_score (output_values). -/
noncomputable def assembledScores (cfg : SRConfig) (ts : DataFrame) (prev : Option DataFrame) : List ℝ :=
  let values := workingValues cfg ts prev
  let s := trimmedSaliency cfg values
  outputValues s (averageValues cfg s values.length)

/-- SpectralResidual._get_anomaly_score: the assembled scores, sliced to the
last len(time_series) entries (output_values[-len(time_series):]; the Python
slice [-0:] keeps the whole array), indexed by the input frame index. -/
noncomputable def getAnomalyScore (cfg : SRConfig) (ts : DataFrame) (prev : Option DataFrame) : ScoreFrame :=
  let ov := assembledScores cfg ts prev
  ⟨ts.index, if ts.index.length = 0 then ov else ov.drop (ov.length - ts.index.length)⟩

/-- The RuntimeError message of _train, naming the channel count. -/
def targetMissingMsg (dim : ℕ) : String :=
  "Attempting to use the SR algorithm on a " ++ toString dim ++
    "-variable time series, but did not specify a target_seq_index indicating which univariate is the target."

/-- The assertion message of _train. -/
def targetRangeMsg (dim : ℕ) (t : ℤ) : String :=
  "Expected target_seq_index to be between 0 and " ++ toString dim ++
    " (the dimension of the transformed data), but got " ++ toString t

/-- The validation and target-resolution portion of SpectralResidual._train:
a single-channel series forces target_seq_index to 0; otherwise a missing
target raises a RuntimeError, and the resulting target must satisfy
0 <= target < dim.  The mutation of self.config is modelled by returning the
updated configuration. -/
def trainResolve (cfg : SRConfig) (dim : ℕ) : Except String SRConfig := do
  let cfg1 ←
    if dim = 1 then
      pure { cfg with target_seq_index := some 0 }
    else if cfg.target_seq_index = none then
      Except.error (targetMissingMsg dim)
    else
      pure cfg
  let t := cfg1.target_seq_index.getD 0
  if 0 ≤ t ∧ t < (dim : ℤ) then
    pure cfg1
  else
    Except.error (targetRangeMsg dim t)

/-- SpectralResidual._train: resolve and validate the target index, then
score the training data (self._get_anomaly_score(train_data)). -/
noncomputable def train (cfg : SRConfig) (data : DataFrame) : Except String (SRConfig × ScoreFrame) :=
  (trainResolve cfg data.cols.length).map fun cfg2 => (cfg2, getAnomalyScore cfg2 data none)

/-- Modelled from the spec (section 4.3, for comparison with the code): the
centred moving average of window length q with uniform kernel value 1/q and
same-length output, the window truncating at the edges.  Entry i averages
the input entries with index in [i + h + 1 - q, i + h] for h = (q-1)/2,
clipped to the valid range, always dividing by q. -/
noncomputable def specCenteredMovingAverage (q : ℕ) (a : List ℝ) : List ℝ :=
  (List.range a.length).map fun i =>
    (∑ j in Finset.Icc (i + (q - 1) / 2 + 1 - q) (min (i + (q - 1) / 2) (a.length - 1)),
      a.getD j 0) / (q : ℝ)

/-- Modelled from the spec (section 4.3): the saliency map as the spec words
it, identical to getSaliencyMap except that the frequency smoothing is the
centred truncating moving average written out directly. -/
noncomputable def specSaliencyMap (cfg : SRConfig) (values : List ℝ) : List ℝ :=
  let transform := dft (values.map fun x : ℝ => (x : ℂ))
  let log_amps := transform.map fun z => Real.log (Complex.abs z)
  let phases := transform.map Complex.arg
  let avg_log_amps := specCenteredMovingAverage cfg.q log_amps
  let residuals := List.zipWith (fun x y => x - y) log_amps avg_log_amps
  (idft (List.zipWith (fun (r p : ℝ) => Complex.exp ((r : ℂ) + Complex.I * (p : ℂ))) residuals phases)).map
    fun z => Complex.abs z

/-! ### Length lemmas -/

lemma length_dft (v : List ℂ) : (dft v).length = v.length := by
  rw [dft, List.length_map, List.length_range]

lemma length_idft (v : List ℂ) : (idft v).length = v.length := by
  rw [idft, List.length_map, List.length_range]

lemma length_convolveFull (a v : List ℝ) :
    (convolveFull a v).length = a.length + v.length - 1 := by
  simp [convolveFull]

lemma length_convolveSame (a v : List ℝ) (h1 : 1 ≤ v.length) (h2 : v.length ≤ a.length) :
    (convolveSame a v).length = a.length := by
  have hdiv : (v.length - 1) / 2 ≤ v.length - 1 := Nat.div_le_self _ _
  simp only [convolveSame, List.length_take, List.length_drop, length_convolveFull]
  omega

lemma length_getSaliencyMap (cfg : SRConfig) (v : List ℝ)
    (hq1 : 1 ≤ cfg.q) (hq2 : cfg.q ≤ v.length) :
    (getSaliencyMap cfg v).length = v.length := by
  have hlt : (dft (v.map fun x : ℝ => (x : ℂ))).length = v.length := by
    rw [length_dft, List.length_map]
  have hconv : (convolveSame ((dft (v.map fun x : ℝ => (x : ℂ))).map fun z => Real.log (Complex.abs z))
      (q_conv_map cfg)).length = v.length := by
    rw [length_convolveSame]
    · rw [List.length_map, hlt]
    · simp [q_conv_map, hq1]
    · simp [q_conv_map, List.length_map, hlt, hq2]
  simp only [getSaliencyMap, List.length_map, length_idft, List.length_zipWith, hlt, hconv]
  omega

lemma length_pad (cfg : SRConfig) (v : List ℝ) :
    (pad cfg v).length = v.length + cfg.estimated_points := by
  simp [pad]

lemma length_paddedValues (cfg : SRConfig) (v : List ℝ) :
    (paddedValues cfg v).length = v.length + (if 0 < cfg.estimated_points then cfg.estimated_points else 0) := by
  by_cases h : 0 < cfg.estimated_points <;> simp [paddedValues, h, length_pad]

lemma length_trimmedSaliency (cfg : SRConfig) (v : List ℝ)
    (hq1 : 1 ≤ cfg.q) (hq2 : cfg.q ≤ v.length) :
    (trimmedSaliency cfg v).length = v.length := by
  by_cases h : 0 < cfg.estimated_points
  · have hpl : (paddedValues cfg v).length = v.length + cfg.estimated_points := by
      simp [length_paddedValues, h]
    have hs : (getSaliencyMap cfg (paddedValues cfg v)).length = v.length + cfg.estimated_points := by
      rw [length_getSaliencyMap cfg _ hq1 (by omega), hpl]
    simp only [trimmedSaliency, if_pos h, List.length_take, hs]
    omega
  · have hpl : (paddedValues cfg v).length = v.length := by
      simp [length_paddedValues, h]
    have hs : (getSaliencyMap cfg (paddedValues cfg v)).length = v.length := by
      rw [length_getSaliencyMap cfg _ hq1 (by omega), hpl]
    simp only [trimmedSaliency, if_neg h, hs]

lemma length_averageValues (cfg : SRConfig) (s : List ℝ) (n : ℕ)
    (hns : s.length = n) (hn : 1 ≤ n) (hl : 1 ≤ cfg.local_wind_sz) :
    (averageValues cfg s n).length = n - 1 := by
  have hfull : (convolveFull s (local_conv_map cfg)).length = n + cfg.local_wind_sz - 1 := by
    rw [length_convolveFull, local_conv_map, List.length_replicate, hns]
  simp only [averageValues, List.length_dropLast, List.length_zipWith, List.length_take,
    List.length_map, List.length_range, hfull]
  omega

lemma length_outputValues (s a : List ℝ) :
    (outputValues s a).length = min (s.length - 1) a.length + 1 := by
  simp [outputValues]

/-! ### List access helpers -/

lemma getD_eq_getElem {α : Type*} (l : List α) (d : α) {i : ℕ} (h : i < l.length) :
    l.getD i d = l[i] := by
  simp [List.getD_eq_getElem?_getD, List.getElem?_eq_getElem h]

lemma getD_eq_default {α : Type*} (l : List α) (d : α) {i : ℕ} (h : l.length ≤ i) :
    l.getD i d = d := by
  simp [List.getD_eq_getElem?_getD, List.getElem?_eq_none h]

lemma getD_replicate {α : Type*} (n i : ℕ) (x d : α) :
    (List.replicate n x).getD i d = if i < n then x else d := by
  by_cases h : i < n
  · rw [if_pos h, getD_eq_getElem _ _ (by simpa using h), List.getElem_replicate]
  · rw [if_neg h, getD_eq_default _ _ (by simpa using Nat.le_of_not_lt h)]

lemma sum_map_range {M : Type*} [AddCommMonoid M] (f : ℕ → M) (n : ℕ) :
    ((List.range n).map f).sum = ∑ i in Finset.range n, f i := by
  induction n with
  | zero => simp
  | succ k ih =>
    rw [List.range_succ, List.map_append, List.sum_append, Finset.sum_range_succ, ih]
    simp

/-! ### Gradient and padding (claim C6) -/

/-- Claim C6: for an input of length at least 2 and positive
predicting_points, with m = min(predicting_points, length - 1), the gradient
is the arithmetic mean of the m per-step slopes from each of the last m
points before the final point to the final value (divisors m, m-1, ..., 1),
the pad appends estimated_points copies of values[length - m] + gradient * m,
and padding is skipped entirely when estimated_points = 0. -/
theorem spectral_c6 (cfg : SRConfig) (v : List ℝ) (h2 : 2 ≤ v.length)
    (hpp : 1 ≤ cfg.predicting_points) :
    computeGrad cfg v =
      (∑ t in Finset.Icc 1 (min cfg.predicting_points (v.length - 1)),
        (v.getD (v.length - 1) 0 - v.getD (v.length - 1 - t) 0) / (t : ℝ)) /
        ((min cfg.predicting_points (v.length - 1) : ℕ) : ℝ)
    ∧ pad cfg v = v ++ List.replicate cfg.estimated_points
        (v.getD (v.length - min cfg.predicting_points (v.length - 1)) 0 +
          computeGrad cfg v * ((min cfg.predicting_points (v.length - 1) : ℕ) : ℝ))
    ∧ (cfg.estimated_points = 0 → paddedValues cfg v = v)
    ∧ (0 < cfg.estimated_points → paddedValues cfg v = pad cfg v) := by
  set L := v.length with hLdef
  set m := min cfg.predicting_points (L - 1) with hmdef
  have hm1 : 1 ≤ m := by omega
  have hmL : m ≤ L - 1 := by omega
  refine ⟨?_, ?_, ?_, ?_⟩
  · simp only [computeGrad]
    rw [← hmdef]
    have haverages : List.zipWith (fun x d => x / ((d : ℕ) : ℝ))
        (((v.drop (L - 1 - m)).take m).map fun y => v.getD (L - 1) 0 - y)
        ((List.range m).map fun j => m - j)
      = (List.range m).map fun j =>
          (v.getD (L - 1) 0 - v.getD (L - 1 - m + j) 0) / ((m - j : ℕ) : ℝ) := by
      apply List.ext_getElem
      · simp [hLdef]
        omega
      · intro u hu1 hu2
        rw [List.getElem_zipWith, List.getElem_map, List.getElem_take, List.getElem_drop,
          List.getElem_map, List.getElem_range, List.getElem_map, List.getElem_range]
        rw [getD_eq_getElem v 0 (by simp at hu2; omega : L - 1 - m + u < v.length)]
    rw [haverages, sum_map_range, List.length_map, List.length_range]
    congr 1
    rw [show Finset.Icc 1 m = Finset.Ico 1 (m + 1) from (Nat.Ico_succ_right 1 m).symm,
      Finset.sum_Ico_eq_sum_range]
    have hmm : m + 1 - 1 = m := by omega
    rw [hmm, ← Finset.sum_range_reflect]
    apply Finset.sum_congr rfl
    intro j hj
    have hjm : j < m := Finset.mem_range.mp hj
    have e1 : L - 1 - m + (m - 1 - j) = L - 1 - (1 + j) := by omega
    have e2 : m - (m - 1 - j) = 1 + j := by omega
    rw [e1, e2]
  · simp only [pad]
    rw [← hmdef, if_neg (by omega : ¬ m = 0)]
  · intro h
    simp [paddedValues, h]
  · intro h
    simp [paddedValues, h]

theorem spectral_c6_witness :
    2 ≤ ([(1 : ℝ), 2] : List ℝ).length ∧
    paddedValues ⟨21, 3, 0, 5, none⟩ [(1 : ℝ), 2] = [(1 : ℝ), 2] :=
  ⟨by simp, (spectral_c6 ⟨21, 3, 0, 5, none⟩ [(1 : ℝ), 2] (by simp) (by decide)).2.2.1 rfl⟩

/-! ### Trailing local average and score assembly (claims C3, C2) -/

/-- Claim C3: for a trimmed saliency map of length N >= 1 (and a nonempty
kernel), the trailing local average is the full convolution with the
unnormalised all-ones kernel of length local_wind_sz (of length
N + local_wind_sz - 1), restricted to its first N entries, entry k (1-based)
divided by min(k, local_wind_sz), with the last entry dropped, yielding
length N - 1. -/
theorem spectral_c3 (cfg : SRConfig) (s : List ℝ) (hs : 1 ≤ s.length)
    (hl : 1 ≤ cfg.local_wind_sz) :
    (convolveFull s (local_conv_map cfg)).length = s.length + cfg.local_wind_sz - 1
    ∧ (averageValues cfg s s.length).length = s.length - 1
    ∧ ∀ k, k < s.length - 1 →
        (averageValues cfg s s.length).getD k 0 =
          (convolveFull s (local_conv_map cfg)).getD k 0 / ((min (k + 1) cfg.local_wind_sz : ℕ) : ℝ) := by
  have hfl : (convolveFull s (local_conv_map cfg)).length = s.length + cfg.local_wind_sz - 1 := by
    rw [length_convolveFull, local_conv_map, List.length_replicate]
  have hal : (averageValues cfg s s.length).length = s.length - 1 :=
    length_averageValues cfg s s.length rfl hs hl
  refine ⟨hfl, hal, ?_⟩
  intro k hk
  rw [getD_eq_getElem _ _ (by rw [hal]; omega), getD_eq_getElem _ _ (by rw [hfl]; omega)]
  simp only [averageValues]
  rw [List.getElem_dropLast, List.getElem_zipWith, List.getElem_take, List.getElem_map,
    List.getElem_range]

/-- Claim C2: the assembled score array has the length of the saliency map,
entry 0 equal to 0.0, entry k (for 1 <= k < N) equal to
(saliency[k] - average[k-1]) / (average[k-1] + 1e-8), and the returned scores
are the last len(time_series) entries of the assembled array. -/
theorem spectral_c2 (s a : List ℝ) (ha : a.length + 1 = s.length)
    (cfg : SRConfig) (ts : DataFrame) (prev : Option DataFrame) (hn : 1 ≤ ts.index.length) :
    (outputValues s a).length = s.length
    ∧ (outputValues s a).getD 0 0 = 0
    ∧ (∀ k, 1 ≤ k → k < s.length →
        (outputValues s a).getD k 0 =
          (s.getD k 0 - a.getD (k - 1) 0) / (a.getD (k - 1) 0 + 1e-8))
    ∧ (getAnomalyScore cfg ts prev).values =
        (assembledScores cfg ts prev).drop ((assembledScores cfg ts prev).length - ts.index.length) := by
  refine ⟨?_, rfl, ?_, ?_⟩
  · rw [length_outputValues]
    omega
  · intro k hk1 hk2
    obtain ⟨u, rfl⟩ : ∃ u, k = u + 1 := ⟨k - 1, by omega⟩
    have hu : u < (List.zipWith (fun s a => (s - a) / (a + 1e-8)) (s.drop 1) a).length := by
      simp only [List.length_zipWith, List.length_drop]
      omega
    rw [outputValues, List.getD_cons_succ, getD_eq_getElem _ _ hu, List.getElem_zipWith,
      List.getElem_drop]
    have h1u : 1 + u = u + 1 := by omega
    rw [getD_eq_getElem s 0 (by omega : u + 1 < s.length),
      getD_eq_getElem a 0 (by omega : u + 1 - 1 < a.length)]
    simp only [Nat.add_sub_cancel, h1u]
  · simp only [getAnomalyScore]
    rw [if_neg (by omega)]

/-! ### Saliency map refinement (claim C5) -/

/-- numpy same-mode convolution with the uniform kernel of length q and value
1/q agrees, entry by entry, with the centred truncating moving average the
spec describes: entry i averages the inputs with index in the window
[i + h + 1 - q, i + h], h = (q-1)/2, clipped to the valid range, divided by q. -/
lemma convolveSame_uniform (a : List ℝ) (q : ℕ) (hq1 : 1 ≤ q) (hqa : q ≤ a.length) :
    convolveSame a (List.replicate q ((1 : ℝ) / (q : ℝ))) = specCenteredMovingAverage q a := by
  have hkl : (List.replicate q ((1 : ℝ) / (q : ℝ))).length = q := List.length_replicate q _
  apply List.ext_getElem
  · rw [length_convolveSame _ _ (by rw [hkl]; omega) (by rw [hkl]; omega)]
    simp [specCenteredMovingAverage]
  · intro i hi1 hi2
    have hiN : i < a.length := by
      rw [length_convolveSame _ _ (by rw [hkl]; omega) (by rw [hkl]; omega)] at hi1
      exact hi1
    simp only [specCenteredMovingAverage]
    rw [List.getElem_map, List.getElem_range]
    simp only [convolveSame, hkl]
    simp only [min_eq_right hqa, max_eq_left hqa]
    rw [List.getElem_take, List.getElem_drop]
    simp only [convolveFull]
    rw [List.getElem_map, List.getElem_range]
    set n := (q - 1) / 2 + i with hn
    rw [show i + (q - 1) / 2 = n from by omega]
    have step1 : ∑ j in Finset.range (n + 1),
        a.getD j 0 * (List.replicate q ((1 : ℝ) / (q : ℝ))).getD (n - j) 0
        = ∑ j in Finset.range (n + 1),
            (if n - j < q then a.getD j 0 * ((1 : ℝ) / (q : ℝ)) else 0) := by
      refine Finset.sum_congr rfl fun j hj => ?_
      rw [getD_replicate, mul_ite, mul_zero]
    have hfilter : (Finset.range (n + 1)).filter (fun j => n - j < q) = Finset.Icc (n + 1 - q) n := by
      ext x
      simp only [Finset.mem_filter, Finset.mem_range, Finset.mem_Icc]
      omega
    have step4 : ∑ j in Finset.Icc (n + 1 - q) (min n (a.length - 1)), a.getD j 0
        = ∑ j in Finset.Icc (n + 1 - q) n, a.getD j 0 := by
      apply Finset.sum_subset
      · exact Finset.Icc_subset_Icc_right (min_le_left _ _)
      · intro x hx hnx
        simp only [Finset.mem_Icc] at hx hnx
        have hxa : a.length ≤ x := by omega
        exact getD_eq_default a 0 hxa
    rw [step1, ← Finset.sum_filter, hfilter, ← Finset.sum_mul, ← step4, mul_one_div]

/-- Claim C5: the saliency map of the code coincides with the saliency map as
the spec words it (magnitude of the inverse transform of
exp(residual + i*phase), residual being the log amplitudes minus their
centred uniform moving average of width q), and it has the length of its
input array. -/
theorem spectral_c5 (cfg : SRConfig) (v : List ℝ) (hq1 : 1 ≤ cfg.q) (hq2 : cfg.q ≤ v.length) :
    getSaliencyMap cfg v = specSaliencyMap cfg v
    ∧ (getSaliencyMap cfg v).length = v.length := by
  have hlog : ((dft (v.map fun x : ℝ => (x : ℂ))).map fun z => Real.log (Complex.abs z)).length
      = v.length := by
    rw [List.length_map, length_dft, List.length_map]
  have hcu := convolveSame_uniform
    ((dft (v.map fun x : ℝ => (x : ℂ))).map fun z => Real.log (Complex.abs z)) cfg.q hq1
    (by rw [hlog]; exact hq2)
  refine ⟨?_, length_getSaliencyMap cfg v hq1 hq2⟩
  simp only [getSaliencyMap, specSaliencyMap, q_conv_map]
  rw [hcu]

theorem spectral_c5_witness :
    1 ≤ (⟨1, 1, 0, 1, none⟩ : SRConfig).q ∧
    getSaliencyMap ⟨1, 1, 0, 1, none⟩ [(1 : ℝ)] = specSaliencyMap ⟨1, 1, 0, 1, none⟩ [(1 : ℝ)] :=
  ⟨by decide, (spectral_c5 ⟨1, 1, 0, 1, none⟩ [(1 : ℝ)] (by decide) (by simp)).1⟩

/-! ### Output alignment (claim C1) -/

lemma length_targetCol (cfg : SRConfig) (df : DataFrame) (i : ℕ)
    (hres : cfg.target_seq_index = some (i : ℤ))
    (hi : i < df.cols.length) (hwf : df.WF) :
    (targetCol cfg df).length = df.index.length := by
  have hidx : pyIdx df.cols.length (cfg.target_seq_index.getD 0) = i := by
    rw [hres, Option.getD_some, pyIdx, if_neg (by omega), Int.toNat_natCast]
  rw [targetCol, hidx, getD_eq_getElem _ _ hi]
  exact hwf _ (List.getElem_mem hi)

lemma length_assembledScores (cfg : SRConfig) (ts : DataFrame) (prev : Option DataFrame)
    (hL : 1 ≤ (workingValues cfg ts prev).length)
    (hq1 : 1 ≤ cfg.q) (hq2 : cfg.q ≤ (workingValues cfg ts prev).length)
    (hl : 1 ≤ cfg.local_wind_sz) :
    (assembledScores cfg ts prev).length = (workingValues cfg ts prev).length := by
  have hts : (trimmedSaliency cfg (workingValues cfg ts prev)).length =
      (workingValues cfg ts prev).length :=
    length_trimmedSaliency cfg _ hq1 hq2
  have hav : (averageValues cfg (trimmedSaliency cfg (workingValues cfg ts prev))
      (workingValues cfg ts prev).length).length = (workingValues cfg ts prev).length - 1 :=
    length_averageValues cfg _ _ hts hL hl
  simp only [assembledScores]
  rw [length_outputValues, hts, hav]
  omega

/-- Claim C1: for a valid scoring call (well-formed frames, resolved target
index in range, nonempty input, q at most the input length, nonempty local
window), the returned frame has exactly one score per input timestamp: its
index is the input frame index and its value count equals the input length,
with or without a history frame. -/
theorem spectral_c1 (cfg : SRConfig) (ts : DataFrame) (prev : Option DataFrame) (i : ℕ)
    (hres : cfg.target_seq_index = some (i : ℤ))
    (hits : i < ts.cols.length) (hwts : ts.WF)
    (hprev : ∀ pf ∈ prev, pf.WF ∧ i < pf.cols.length)
    (hn : 1 ≤ ts.index.length)
    (hq1 : 1 ≤ cfg.q) (hq2 : cfg.q ≤ ts.index.length)
    (hl : 1 ≤ cfg.local_wind_sz) :
    (getAnomalyScore cfg ts prev).index = ts.index
    ∧ (getAnomalyScore cfg ts prev).values.length = ts.index.length := by
  have hge : ts.index.length ≤ (workingValues cfg ts prev).length := by
    rcases prev with _ | p
    · rw [workingValues, length_targetCol cfg ts i hres hits hwts]
    · obtain ⟨hpwf, hpi⟩ := hprev p rfl
      rw [workingValues, List.length_append, length_targetCol cfg ts i hres hits hwts]
      omega
  have hL : 1 ≤ (workingValues cfg ts prev).length := le_trans hn hge
  have hq2w : cfg.q ≤ (workingValues cfg ts prev).length := le_trans hq2 hge
  have hov : (assembledScores cfg ts prev).length = (workingValues cfg ts prev).length :=
    length_assembledScores cfg ts prev hL hq1 hq2w hl
  refine ⟨rfl, ?_⟩
  simp only [getAnomalyScore]
  rw [if_neg (by omega)]
  rw [List.length_drop, hov]
  omega

theorem spectral_c1_witness :
    1 ≤ (DataFrame.mk (List.range 50) [List.replicate 50 (1 : ℝ)]).index.length ∧
    (getAnomalyScore ⟨21, 3, 5, 5, some 0⟩
        (DataFrame.mk (List.range 50) [List.replicate 50 (1 : ℝ)])
        (some (DataFrame.mk (List.range 50) [List.replicate 50 (2 : ℝ)]))).values.length =
      (DataFrame.mk (List.range 50) [List.replicate 50 (1 : ℝ)]).index.length :=
  ⟨by simp, (spectral_c1 ⟨21, 3, 5, 5, some 0⟩
    (DataFrame.mk (List.range 50) [List.replicate 50 (1 : ℝ)])
    (some (DataFrame.mk (List.range 50) [List.replicate 50 (2 : ℝ)])) 0 rfl (by decide)
    (by simp [DataFrame.WF])
    (by intro pf hpf; simp at hpf; subst hpf; exact ⟨by simp [DataFrame.WF], by decide⟩)
    (by simp) (by decide) (by simp) (by decide)).2⟩

theorem spectral_c2_witness :
    ([(3 : ℝ)] : List ℝ).length + 1 = ([(1 : ℝ), 2] : List ℝ).length ∧
    (outputValues [(1 : ℝ), 2] [(3 : ℝ)]).length = ([(1 : ℝ), 2] : List ℝ).length :=
  ⟨by simp, (spectral_c2 [(1 : ℝ), 2] [(3 : ℝ)] (by simp) ⟨21, 3, 5, 5, some 0⟩
    (DataFrame.mk [0] [[(1 : ℝ)]]) none (by simp)).1⟩

theorem spectral_c3_witness :
    1 ≤ ([(1 : ℝ)] : List ℝ).length ∧
    (averageValues ⟨1, 1, 0, 1, some 0⟩ [(1 : ℝ)] ([(1 : ℝ)] : List ℝ).length).length =
      ([(1 : ℝ)] : List ℝ).length - 1 :=
  ⟨by simp, (spectral_c3 ⟨1, 1, 0, 1, some 0⟩ [(1 : ℝ)] (by simp) (by decide)).2.1⟩

/-! ### First output score (claim C4)

The first entry of the assembled score array is pinned to zero, but the
returned scores are the last len(time_series) entries of that array, so with
a history prefix the first returned score is an interior entry.  The
counterexample below evaluates the whole pipeline on the two-point working
array [2, 1] (history [2], input [1]) with q = 1, local_wind_sz = 1 and no
padding, where the spectrum is [3, 1], the saliency map is [1, 0], the
trailing average is [1], and the returned score is (0 - 1)/(1 + 1e-8). -/

lemma exp_neg_pi : Complex.exp (-(2 * (Real.pi : ℂ) * Complex.I * 1 * 1 / 2)) = -1 := by
  have h : (-(2 * (Real.pi : ℂ) * Complex.I * 1 * 1 / 2)) = -((Real.pi : ℂ) * Complex.I) := by
    ring
  rw [h, Complex.exp_neg, Complex.exp_pi_mul_I]
  norm_num

lemma exp_pos_pi : Complex.exp (2 * (Real.pi : ℂ) * Complex.I * 1 * 1 / 2) = -1 := by
  have h : (2 * (Real.pi : ℂ) * Complex.I * 1 * 1 / 2) = (Real.pi : ℂ) * Complex.I := by
    ring
  rw [h, Complex.exp_pi_mul_I]

lemma dft_pair (x y : ℂ) : dft [x, y] = [x + y, x - y] := by
  simp only [dft, List.length_cons, List.length_nil]
  rw [show List.range (0 + 1 + 1) = [0, 1] from rfl]
  simp only [List.map_cons, List.map_nil]
  congr 1
  · rw [Finset.sum_range_succ, Finset.sum_range_succ, Finset.sum_range_zero]
    simp [Complex.exp_zero]
  · congr 1
    rw [Finset.sum_range_succ, Finset.sum_range_succ, Finset.sum_range_zero]
    push_cast
    simp only [List.getD_cons_zero, List.getD_cons_succ]
    rw [show (-(2 * (Real.pi : ℂ) * Complex.I * 1 * 0 / 2)) = 0 from by ring,
        exp_neg_pi, Complex.exp_zero]
    ring

lemma idft_pair (x y : ℂ) : idft [x, y] = [(x + y) / 2, (x - y) / 2] := by
  simp only [idft, List.length_cons, List.length_nil]
  rw [show List.range (0 + 1 + 1) = [0, 1] from rfl]
  simp only [List.map_cons, List.map_nil]
  congr 1
  · rw [Finset.sum_range_succ, Finset.sum_range_succ, Finset.sum_range_zero]
    push_cast
    simp only [List.getD_cons_zero, List.getD_cons_succ]
    rw [show (2 * (Real.pi : ℂ) * Complex.I * 0 * 0 / 2) = 0 from by ring,
        show (2 * (Real.pi : ℂ) * Complex.I * 1 * 0 / 2) = 0 from by ring,
        Complex.exp_zero]
    ring
  · congr 1
    rw [Finset.sum_range_succ, Finset.sum_range_succ, Finset.sum_range_zero]
    push_cast
    simp only [List.getD_cons_zero, List.getD_cons_succ]
    rw [show (2 * (Real.pi : ℂ) * Complex.I * 0 * 1 / 2) = 0 from by ring,
        exp_pos_pi, Complex.exp_zero]
    ring

lemma convolveFull_pair_one (x y : ℝ) : convolveFull [x, y] [(1 : ℝ)] = [x, y] := by
  simp only [convolveFull, List.length_cons, List.length_nil]
  rw [show (0 + 1 + 1 + (0 + 1) - 1) = 2 from rfl, show List.range 2 = [0, 1] from rfl]
  simp only [List.map_cons, List.map_nil]
  congr 1
  · rw [Finset.sum_range_succ, Finset.sum_range_zero]
    simp
  · congr 1
    rw [Finset.sum_range_succ, Finset.sum_range_succ, Finset.sum_range_zero]
    simp

lemma convolveSame_pair_one (x y : ℝ) : convolveSame [x, y] [(1 : ℝ)] = [x, y] := by
  simp only [convolveSame, convolveFull_pair_one, List.length_cons, List.length_nil]
  rfl

lemma c4_workingValues :
    workingValues ⟨1, 1, 0, 1, some 0⟩ ⟨[1], [[(1 : ℝ)]]⟩ (some ⟨[0], [[(2 : ℝ)]]⟩) = [(2 : ℝ), 1] :=
  rfl

lemma c4_saliency : getSaliencyMap ⟨1, 1, 0, 1, some 0⟩ [(2 : ℝ), 1] = [1, 0] := by
  have ht : dft ([(2 : ℝ), 1].map fun x : ℝ => (x : ℂ)) = [(3 : ℂ), 1] := by
    rw [show ([(2 : ℝ), 1].map fun x : ℝ => (x : ℂ)) = [((2 : ℝ) : ℂ), ((1 : ℝ) : ℂ)] from rfl,
      dft_pair]
    norm_num
  have hq : q_conv_map ⟨1, 1, 0, 1, some 0⟩ = [(1 : ℝ)] := by
    norm_num [q_conv_map]
  have hlog : ([(3 : ℂ), 1].map fun z => Real.log (Complex.abs z)) = [Real.log 3, 0] := by
    simp
  have hphase : ([(3 : ℂ), 1].map Complex.arg) = [0, 0] := by
    simp
  simp only [getSaliencyMap, ht, hq, hlog, hphase, convolveSame_pair_one]
  rw [show List.zipWith (fun x y => x - y) [Real.log 3, 0] [Real.log 3, 0] = [(0 : ℝ), 0] from by simp]
  rw [show List.zipWith (fun (r p : ℝ) => Complex.exp ((r : ℂ) + Complex.I * (p : ℂ)))
        [(0 : ℝ), 0] [(0 : ℝ), 0] = [(1 : ℂ), 1] from by simp]
  rw [idft_pair]
  norm_num

lemma c4_localKernel : local_conv_map ⟨1, 1, 0, 1, some 0⟩ = [(1 : ℝ)] := rfl

lemma c4_average : averageValues ⟨1, 1, 0, 1, some 0⟩ [(1 : ℝ), 0] 2 = [1] := by
  simp only [averageValues, c4_localKernel, convolveFull_pair_one]
  rw [show ([(1 : ℝ), 0].take 2) = [(1 : ℝ), 0] from rfl]
  rw [show (List.range ([(1 : ℝ), 0].length)) = [0, 1] from rfl]
  rw [show ([0, 1].map fun k => min (k + 1) (⟨1, 1, 0, 1, some 0⟩ : SRConfig).local_wind_sz)
        = [1, 1] from rfl]
  rw [show (List.zipWith (fun x d => x / ((d : ℕ) : ℝ)) [(1 : ℝ), 0] [1, 1])
        = [(1 : ℝ) / ((1 : ℕ) : ℝ), 0 / ((1 : ℕ) : ℝ)] from rfl]
  rw [show (List.dropLast [(1 : ℝ) / ((1 : ℕ) : ℝ), 0 / ((1 : ℕ) : ℝ)])
        = [(1 : ℝ) / ((1 : ℕ) : ℝ)] from rfl]
  norm_num

lemma c4_trimmed : trimmedSaliency ⟨1, 1, 0, 1, some 0⟩ [(2 : ℝ), 1] = [1, 0] := by
  simp [trimmedSaliency, paddedValues, c4_saliency]

lemma c4_assembled :
    assembledScores ⟨1, 1, 0, 1, some 0⟩ ⟨[1], [[(1 : ℝ)]]⟩ (some ⟨[0], [[(2 : ℝ)]]⟩)
      = [0, (0 - 1) / (1 + 1e-8)] := by
  simp only [assembledScores, c4_workingValues, c4_trimmed]
  rw [show ([(2 : ℝ), 1].length) = 2 from rfl, c4_average]
  rfl

lemma c4_returnedValues :
    (getAnomalyScore ⟨1, 1, 0, 1, some 0⟩ ⟨[1], [[(1 : ℝ)]]⟩ (some ⟨[0], [[(2 : ℝ)]]⟩)).values
      = [(0 - 1) / (1 + 1e-8)] := by
  simp only [getAnomalyScore, c4_assembled]
  rw [show ((⟨[1], [[(1 : ℝ)]]⟩ : DataFrame).index.length) = 1 from rfl]
  rw [if_neg (by decide : ¬ (1 : ℕ) = 0)]
  rw [show ([(0 : ℝ), (0 - 1) / (1 + 1e-8)].length - 1) = 1 from rfl]
  rfl

/-- Claim C4, counterexample to the claim as stated: a valid scoring call
with a one-point history prefix whose first (and only) returned score is
(0 - 1)/(1 + 1e-8), not 0.0 — the zero entry of the assembled array is cut
away together with the history positions. -/
theorem spectral_c4_counterexample :
    (getAnomalyScore ⟨1, 1, 0, 1, some 0⟩ ⟨[1], [[(1 : ℝ)]]⟩
      (some ⟨[0], [[(2 : ℝ)]]⟩)).values.getD 0 0 ≠ 0 := by
  rw [c4_returnedValues, List.getD_cons_zero]
  norm_num

/-- Claim C4 (amended): the first entry of the full assembled score array is
always exactly 0.0, and the score at the first output position of a valid
scoring call is exactly 0.0 whenever no history prefix is supplied; with a
history prefix the first returned score is the assembled entry at the first
non-history position, which need not be zero. -/
theorem spectral_c4 (cfg : SRConfig) (ts : DataFrame) (prev : Option DataFrame) (i : ℕ)
    (hres : cfg.target_seq_index = some (i : ℤ))
    (hits : i < ts.cols.length) (hwts : ts.WF)
    (hn : 1 ≤ ts.index.length)
    (hq1 : 1 ≤ cfg.q) (hq2 : cfg.q ≤ ts.index.length)
    (hl : 1 ≤ cfg.local_wind_sz) :
    (assembledScores cfg ts prev).getD 0 0 = 0
    ∧ (getAnomalyScore cfg ts none).values.getD 0 0 = 0 := by
  constructor
  · simp only [assembledScores, outputValues, List.getD_cons_zero]
  · have hwv : (workingValues cfg ts none).length = ts.index.length := by
      simp only [workingValues]
      exact length_targetCol cfg ts i hres hits hwts
    have hov : (assembledScores cfg ts none).length = ts.index.length := by
      rw [length_assembledScores cfg ts none (by omega) hq1 (by omega) hl, hwv]
    simp only [getAnomalyScore]
    rw [if_neg (by omega),
      show (assembledScores cfg ts none).length - ts.index.length = 0 from by omega,
      List.drop_zero]
    simp only [assembledScores, outputValues, List.getD_cons_zero]

theorem spectral_c4_witness :
    1 ≤ (DataFrame.mk [0, 1] [[(2 : ℝ), 1]]).index.length ∧
    (getAnomalyScore ⟨1, 1, 0, 1, some 0⟩ (DataFrame.mk [0, 1] [[(2 : ℝ), 1]]) none).values.getD 0 0 = 0 :=
  ⟨by simp, (spectral_c4 ⟨1, 1, 0, 1, some 0⟩ (DataFrame.mk [0, 1] [[(2 : ℝ), 1]]) none 0 rfl
    (by decide) (by simp [DataFrame.WF]) (by simp) (by decide) (by simp) (by decide)).2⟩

/-! ### Training, target resolution and validation (claims C7, C8, C9, C10) -/

lemma except_pure_eq_ok {ε α : Type} (a : α) : (pure a : Except ε α) = Except.ok a := rfl

lemma except_bind_error {ε α β : Type} (e : ε) (f : α → Except ε β) :
    (Except.error e >>= f) = Except.error e := rfl

lemma except_bind_ok {ε α β : Type} (a : α) (f : α → Except ε β) :
    (Except.ok a >>= f) = f a := rfl

lemma except_map_error {ε α β : Type} (g : α → β) (e : ε) :
    Except.map g (Except.error e : Except ε α) = Except.error e := rfl

lemma except_map_ok {ε α β : Type} (g : α → β) (a : α) :
    Except.map g (Except.ok a : Except ε α) = Except.ok (g a) := rfl

/-- Claim C7: with at least one channel, fitting raises the missing-target
configuration error exactly when the series has more than one channel and no
target index is configured, with a message naming the channel count; it
raises the range error when the series has more than one channel and the
configured target index falls outside the valid range; in all other cases
fitting does not raise. -/
theorem spectral_c7 (cfg : SRConfig) (data : DataFrame) (hdim : 1 ≤ data.cols.length) :
    (2 ≤ data.cols.length → cfg.target_seq_index = none →
      train cfg data = Except.error (targetMissingMsg data.cols.length))
    ∧ (∀ t : ℤ, 2 ≤ data.cols.length → cfg.target_seq_index = some t →
        ¬(0 ≤ t ∧ t < (data.cols.length : ℤ)) →
        train cfg data = Except.error (targetRangeMsg data.cols.length t))
    ∧ (∃ s1 s2 : String,
        targetMissingMsg data.cols.length = s1 ++ toString data.cols.length ++ s2)
    ∧ (data.cols.length = 1 → ∃ out, train cfg data = Except.ok out)
    ∧ (∀ t : ℤ, 2 ≤ data.cols.length → cfg.target_seq_index = some t →
        0 ≤ t → t < (data.cols.length : ℤ) → train cfg data = Except.ok (cfg, getAnomalyScore cfg data none)) := by
  refine ⟨?_, ?_, ?_, ?_, ?_⟩
  · intro h2 hnone
    have hne : ¬ data.cols.length = 1 := by omega
    simp [train, trainResolve, hnone, hne, except_pure_eq_ok, except_bind_error, except_bind_ok, except_map_error, except_map_ok]
  · intro t h2 hsome hrange
    have hne : ¬ data.cols.length = 1 := by omega
    simp [train, trainResolve, hsome, hne, hrange, except_pure_eq_ok, except_bind_error, except_bind_ok, except_map_error, except_map_ok]
  · exact ⟨"Attempting to use the SR algorithm on a ",
      "-variable time series, but did not specify a target_seq_index indicating which univariate is the target.",
      rfl⟩
  · intro h1
    exact ⟨({ cfg with target_seq_index := some 0 },
      getAnomalyScore { cfg with target_seq_index := some 0 } data none),
      by simp [train, trainResolve, h1, except_pure_eq_ok, except_bind_error, except_bind_ok, except_map_error, except_map_ok]⟩
  · intro t h2 hsome ht0 htd
    have hne : ¬ data.cols.length = 1 := by omega
    simp [train, trainResolve, hsome, hne, ht0, htd, except_pure_eq_ok, except_bind_error, except_bind_ok, except_map_error, except_map_ok]

/-- Claim C8: on a one-channel series, fitting (and with it the scoring of
the training data) with no configured target index succeeds and gives the
same result as fitting with the target index explicitly set to 0. -/
theorem spectral_c8 (cfg : SRConfig) (ts : DataFrame) (h1 : ts.cols.length = 1) :
    train { cfg with target_seq_index := none } ts = train { cfg with target_seq_index := some 0 } ts
    ∧ ∃ out, train { cfg with target_seq_index := none } ts = Except.ok out := by
  constructor
  · simp [train, trainResolve, h1, except_pure_eq_ok, except_bind_error, except_bind_ok, except_map_error, except_map_ok]
  · exact ⟨({ cfg with target_seq_index := some 0 },
      getAnomalyScore { cfg with target_seq_index := some 0 } ts none),
      by simp [train, trainResolve, h1, except_pure_eq_ok, except_bind_error, except_bind_ok, except_map_error, except_map_ok]⟩

/-- Claim C10: on a one-channel training series, fitting never raises
whatever target index is configured (including negative or out-of-range
values): the configured value is overwritten with 0 before the range check
runs, so the range check can only fail on multi-channel input. -/
theorem spectral_c10 (cfg : SRConfig) (ts : DataFrame) (h1 : ts.cols.length = 1) :
    train cfg ts =
      Except.ok ({ cfg with target_seq_index := some 0 },
        getAnomalyScore { cfg with target_seq_index := some 0 } ts none) := by
  simp [train, trainResolve, h1, except_pure_eq_ok, except_bind_error, except_bind_ok, except_map_error, except_map_ok]

/-- Claim C9 (amended): after every successful fit the resolved target index
satisfies 0 <= target < channel_count of the series just fitted; a fit on a
multi-channel series never modifies the configured value, while every fit on
a single-channel series (re)writes it to 0.  It is therefore not immutable
after first resolution: a later single-channel fit overwrites a target
previously resolved to a nonzero index. -/
theorem spectral_c9 (cfg cfg2 : SRConfig) (dim : ℕ)
    (h : trainResolve cfg dim = Except.ok cfg2) :
    (∃ t : ℤ, cfg2.target_seq_index = some t ∧ 0 ≤ t ∧ t < (dim : ℤ))
    ∧ (dim ≠ 1 → cfg2 = cfg)
    ∧ (dim = 1 → cfg2 = { cfg with target_seq_index := some 0 }) := by
  by_cases hd : dim = 1
  · subst hd
    simp [trainResolve, except_pure_eq_ok, except_bind_error, except_bind_ok, except_map_error, except_map_ok] at h
    subst h
    exact ⟨⟨0, rfl, by decide, by decide⟩, fun hne => absurd rfl hne, fun _ => rfl⟩
  · rcases hcT : cfg.target_seq_index with _ | t
    · simp [trainResolve, hd, hcT, except_pure_eq_ok, except_bind_error, except_bind_ok, except_map_error, except_map_ok] at h
    · by_cases hr : 0 ≤ t ∧ t < (dim : ℤ)
      · simp [trainResolve, hd, hcT, hr, except_pure_eq_ok, except_bind_error, except_bind_ok, except_map_error, except_map_ok] at h
        subst h
        exact ⟨⟨t, hcT, hr.1, hr.2⟩, fun _ => rfl, fun h1 => absurd h1 hd⟩
      · simp [trainResolve, hd, hcT, hr, except_pure_eq_ok, except_bind_error, except_bind_ok, except_map_error, except_map_ok] at h

/-- Claim C9, counterexample to the claim as stated: with a configured target
index of 1, a first fit on a two-channel series resolves and keeps target 1,
but a subsequent fit on a one-channel series overwrites it with 0 — the
resolved value changes after first resolution. -/
theorem spectral_c9_counterexample :
    trainResolve ⟨21, 3, 5, 5, some 1⟩ 2 = Except.ok ⟨21, 3, 5, 5, some 1⟩
    ∧ trainResolve ⟨21, 3, 5, 5, some 1⟩ 1 = Except.ok ⟨21, 3, 5, 5, some 0⟩
    ∧ (some (1 : ℤ) ≠ some (0 : ℤ)) :=
  ⟨rfl, rfl, by decide⟩

theorem spectral_c9_witness :
    trainResolve ⟨21, 3, 5, 5, some 0⟩ 1 = Except.ok ⟨21, 3, 5, 5, some 0⟩ ∧
    (∃ t : ℤ, (⟨21, 3, 5, 5, some 0⟩ : SRConfig).target_seq_index = some t ∧ 0 ≤ t ∧ t < ((1 : ℕ) : ℤ)) :=
  ⟨rfl, (spectral_c9 ⟨21, 3, 5, 5, some 0⟩ ⟨21, 3, 5, 5, some 0⟩ 1 rfl).1⟩

theorem spectral_c7_witness :
    2 ≤ (DataFrame.mk [0] [[(0 : ℝ)], [(0 : ℝ)]]).cols.length ∧
    train ⟨21, 3, 5, 5, none⟩ (DataFrame.mk [0] [[(0 : ℝ)], [(0 : ℝ)]]) =
      Except.error (targetMissingMsg (DataFrame.mk [0] [[(0 : ℝ)], [(0 : ℝ)]]).cols.length) :=
  ⟨by decide, (spectral_c7 ⟨21, 3, 5, 5, none⟩ _ (by decide)).1 (by decide) rfl⟩

theorem spectral_c8_witness :
    (DataFrame.mk [0] [[(1 : ℝ)]]).cols.length = 1 ∧
    train ⟨21, 3, 5, 5, none⟩ (DataFrame.mk [0] [[(1 : ℝ)]]) =
      train ⟨21, 3, 5, 5, some 0⟩ (DataFrame.mk [0] [[(1 : ℝ)]]) :=
  ⟨rfl, (spectral_c8 ⟨21, 3, 5, 5, none⟩ (DataFrame.mk [0] [[(1 : ℝ)]]) rfl).1⟩

theorem spectral_c10_witness :
    (DataFrame.mk [0] [[(1 : ℝ)]]).cols.length = 1 ∧
    train ⟨21, 3, 5, 5, some (-7)⟩ (DataFrame.mk [0] [[(1 : ℝ)]]) =
      Except.ok (⟨21, 3, 5, 5, some 0⟩,
        getAnomalyScore ⟨21, 3, 5, 5, some 0⟩ (DataFrame.mk [0] [[(1 : ℝ)]]) none) :=
  ⟨rfl, spectral_c10 ⟨21, 3, 5, 5, some (-7)⟩ (DataFrame.mk [0] [[(1 : ℝ)]]) rfl⟩

end SR
